import Mathlib

/-!
Verification of the kana-dojo Gauntlet session engine and its persistent
stats store.

The definitions below are a shallow embedding of
`src/shared/components/Gauntlet/index.tsx` (session state machine) and
`src/shared/lib/gauntletStats.ts` (persistent stats store).

Modelling conventions:
* JavaScript numbers that only ever hold non-negative integers are `Nat`;
  `lives`, `maxLives` and `totalQuestions` are `Int` because the source
  subtracts from them (`lives - 1`, `maxLives - actualLives + ...`).
* The `random.integer(lo, hi)` primitive is an injected choice function
  `choice : Nat → Nat → Nat`; theorems that depend on randomness quantify
  over all choice functions that return a value in `[lo, hi]`.
* React state updates inside one `submitAnswer` call are modelled by
  computing every new field from the single snapshot `s` that the event
  handler closed over, exactly as the source does: the `endGame` callback
  reads the pre-update snapshot for the fields it does not receive as
  explicit arguments (bestStreak, currentStreak, maxLives,
  livesRegenerated, characterStats), while the state committed after the
  call carries all the queued setter updates.
* `submitAnswer` is a no-op outside the playing phase: submissions arrive
  only from the ActiveGame screen, which the component renders only while
  `phase === "playing"`; the source additionally guards on
  `currentQuestion` being present, which is modelled directly.
* Timing fields (timestamps, latencies, accuracy) are omitted from the
  session-result record: no claim refers to them.
-/

namespace KanaDojo

/-- A JavaScript drill-item value as seen by the generic Gauntlet component:
either a primitive (string or number) or an object. Object field values are
stored already converted by the JS `String(...)` coercion, since the source
only ever reads them through `String(obj.field)`. -/
inductive JsVal where
  | jstr (s : String)
  | jnum (n : Int)
  | jobj (fields : List (String × String))
deriving DecidableEq

/-- The JS `String(value)` coercion: identity on strings, decimal rendering
for numbers, and the default `Object.prototype.toString` result for plain
objects. -/
def jsToString (v : JsVal) : String :=
  match v with
  | .jstr s => s
  | .jnum n => toString n
  | .jobj _ => "[object Object]"

/-- `getItemId` from Gauntlet/index.tsx lines 280-290: try the fields
`kana`, `kanji`, `word`, `id` in order; otherwise fall back to the generic
string conversion of the item. -/
def getItemId (item : JsVal) : String :=
  match item with
  | .jobj fields =>
    match fields.lookup "kana" with
    | some v => v
    | none =>
      match fields.lookup "kanji" with
      | some v => v
      | none =>
        match fields.lookup "word" with
        | some v => v
        | none =>
          match fields.lookup "id" with
          | some v => v
          | none => jsToString (.jobj fields)
  | _ => jsToString item

/-- One scheduled attempt at a drill item (`GauntletQuestion<T>` from
Gauntlet/types). -/
structure GauntletQuestion where
  item : JsVal
  index : Nat
  repetitionNumber : Int
deriving DecidableEq

/-- The repetition numbers produced by `for (let rep = 1; rep <= repetitions;
rep++)`: the list `[1, ..., repetitions]`, empty when `repetitions < 1`. -/
def repRange (repetitions : Int) : List Int :=
  (List.range repetitions.toNat).map (fun k => (k : Int) + 1)

/-- Swap the elements at positions `i` and `j` of a list (identity when
either index is out of range). -/
def swapL {α : Type} (l : List α) (i j : Nat) : List α :=
  match l.get? i, l.get? j with
  | some x, some y => (l.set i y).set j x
  | _, _ => l

/-- The Fisher-Yates loop of `generateQuestionQueue`: for `i` from
`l.length - 1` down to `1`, swap position `i` with position
`choice 0 i` (the model of `random.integer(0, i)`). -/
def fyLoop {α : Type} (choice : Nat → Nat → Nat) : List α → Nat → List α
  | l, 0 => l
  | l, i + 1 => fyLoop choice (swapL l (i + 1) (choice 0 (i + 1))) i

/-- Fisher-Yates shuffle as in Gauntlet/index.tsx lines 67-71. -/
def fisherYates {α : Type} (choice : Nat → Nat → Nat) (l : List α) : List α :=
  fyLoop choice l (l.length - 1)

/-- `generateQuestionQueue` from Gauntlet/index.tsx lines 50-79: emit
`repetitions` entries per item, Fisher-Yates shuffle the concatenation,
then renumber `index` by final position. Note the source performs no
validation of `repetitions`. -/
def generateQuestionQueue (choice : Nat → Nat → Nat) (items : List JsVal)
    (repetitions : Int) : List GauntletQuestion :=
  let queue : List GauntletQuestion := items.flatMap (fun item =>
    (repRange repetitions).map (fun rep =>
      { item := item, index := 0, repetitionNumber := rep }))
  let shuffled := fisherYates choice queue
  shuffled.enum.map (fun p => { p.2 with index := p.1 })

/-- Error type for the behaviour the specification ascribes to queue
generation. -/
inductive GauntletError where
  | invalidConfig
deriving DecidableEq

/-- Modelled from the spec (section 4.2, not present in the source): queue
generation that fails with `InvalidConfigError` when `repetitions < 1` and
otherwise behaves as the source does. Used to compare the specified
behaviour with the implemented one. -/
def generateQuestionQueueSpec (choice : Nat → Nat → Nat) (items : List JsVal)
    (repetitions : Int) : Except GauntletError (List GauntletQuestion) :=
  if repetitions < 1 then .error .invalidConfig
  else .ok (generateQuestionQueue choice items repetitions)

/-- `calculateRegenThreshold` from Gauntlet/index.tsx lines 41-44:
`Math.max(5, Math.min(20, Math.ceil(totalQuestions * 0.1)))`, with the
ceiling of one tenth written as exact natural-number arithmetic. -/
def calculateRegenThreshold (totalQuestions : Nat) : Nat :=
  max 5 (min 20 ((totalQuestions + 9) / 10))

/-- Game phase of the component (`pregame` / `playing` / `results`); the
spec names these Configuring / Active / Finished. -/
inductive Phase where
  | pregame
  | playing
  | results
deriving DecidableEq

/-- The immutable end-of-session record built by `endGame`
(Gauntlet/index.tsx lines 295-385), restricted to its non-timing fields. -/
structure SessionResult where
  completed : Bool
  correctAnswers : Nat
  wrongAnswers : Nat
  bestStreak : Nat
  currentStreak : Nat
  startingLives : Int
  livesRemaining : Int
  livesLost : Int
  livesRegenerated : Nat
  questionsCompleted : Nat
  characterStats : List (String × Nat × Nat)
deriving DecidableEq

/-- The component state relevant to the session state machine. -/
structure GauntletState where
  questionQueue : List GauntletQuestion
  currentIndex : Nat
  lives : Int
  maxLives : Int
  correctSinceLastRegen : Nat
  regenThreshold : Nat
  correctAnswers : Nat
  wrongAnswers : Nat
  currentStreak : Nat
  bestStreak : Nat
  livesRegenerated : Nat
  characterStats : List (String × Nat × Nat)
  totalQuestions : Int
  regenerates : Bool
  phase : Phase
  result : Option SessionResult
deriving DecidableEq

/-- Per-item tally lookup: `prev[charId]` with `?.` defaulting, as a pair
(correct, wrong). -/
def lookupTally (stats : List (String × Nat × Nat)) (key : String) :
    Nat × Nat :=
  (stats.lookup key).getD (0, 0)

/-- Object-spread update `{...prev, [charId]: v}`: replace the entry for
`key` if present, otherwise add it. -/
def setTally (stats : List (String × Nat × Nat)) (key : String)
    (v : Nat × Nat) : List (String × Nat × Nat) :=
  if stats.any (fun e => e.1 == key) then
    stats.map (fun e => if e.1 == key then (key, v) else e)
  else stats ++ [(key, v)]

/-- The per-item tally update on a correct answer
(Gauntlet/index.tsx lines 487-494). -/
def bumpCorrect (stats : List (String × Nat × Nat)) (key : String) :
    List (String × Nat × Nat) :=
  setTally stats key ((lookupTally stats key).1 + 1, (lookupTally stats key).2)

/-- The per-item tally update on a wrong answer
(Gauntlet/index.tsx lines 523-530). -/
def bumpWrong (stats : List (String × Nat × Nat)) (key : String) :
    List (String × Nat × Nat) :=
  setTally stats key ((lookupTally stats key).1, (lookupTally stats key).2 + 1)

/-- The session record built by `endGame` from the pre-update snapshot
`s` and the explicitly passed actual values, mirroring which fields the
source reads from the (stale) closure and which it receives as arguments. -/
def mkResult (s : GauntletState) (completed : Bool) (actualLives : Int)
    (actualCorrectAnswers actualWrongAnswers actualQuestionsCompleted : Nat) :
    SessionResult :=
  { completed := completed
    correctAnswers := actualCorrectAnswers
    wrongAnswers := actualWrongAnswers
    bestStreak := s.bestStreak
    currentStreak := s.currentStreak
    startingLives := s.maxLives
    livesRemaining := actualLives
    livesLost := s.maxLives - actualLives + (s.livesRegenerated : Int)
    livesRegenerated := s.livesRegenerated
    questionsCompleted := actualQuestionsCompleted
    characterStats := s.characterStats }

/-- The regeneration update of Gauntlet/index.tsx lines 499-511, as a
function of the snapshot: returns (new lives, new correct-since-regen,
new lives-regenerated). -/
def regenUpdate (s : GauntletState) : Int × Nat × Nat :=
  if s.regenerates ∧ s.lives < s.maxLives then
    if s.correctSinceLastRegen + 1 ≥ s.regenThreshold then
      (min (s.lives + 1) s.maxLives, 0, s.livesRegenerated + 1)
    else (s.lives, s.correctSinceLastRegen + 1, s.livesRegenerated)
  else (s.lives, s.correctSinceLastRegen, s.livesRegenerated)

/-- `Array.prototype.splice(pos, 0, a)`: insert `a` at position `pos`,
appending when `pos` exceeds the length (splice clamps the index). -/
def spliceInsert {α : Type} (l : List α) (pos : Nat) (a : α) : List α :=
  l.take pos ++ a :: l.drop pos

/-- The requeue insertion position of Gauntlet/index.tsx lines 450-457:
`remainingLength = queueLen - (currentIndex + 1)`; the offset is
`random.integer(1, max(1, min(remainingLength, 5)))` when slots remain
after the cursor, else `1`. -/
def requeueInsertPos (choice : Nat → Nat → Nat) (queueLen currentIndex : Nat) :
    Nat :=
  let remainingLength := queueLen - (currentIndex + 1)
  let insertOffset :=
    if remainingLength > 0 then choice 1 (max 1 (min remainingLength 5))
    else 1
  currentIndex + insertOffset

/-- `advanceToNextQuestion` from Gauntlet/index.tsx lines 400-466.
`snapshot` is the state the event handler closed over (used for the
queue, the cursor, `totalQuestions`, and the stale fields `endGame`
reads); `s1` carries the setter updates already queued by `submitAnswer`. -/
def advanceToNextQuestion (choice : Nat → Nat → Nat)
    (snapshot s1 : GauntletState) (newLives : Int) (wasCorrect : Bool)
    (newCorrectAnswers newWrongAnswers questionsCompleted : Nat) :
    GauntletState :=
  if newLives ≤ 0 then
    { s1 with phase := Phase.results
              result := some (mkResult snapshot false newLives
                newCorrectAnswers newWrongAnswers questionsCompleted) }
  else if wasCorrect then
    if (newCorrectAnswers : Int) ≥ snapshot.totalQuestions then
      { s1 with phase := Phase.results
                result := some (mkResult snapshot true newLives
                  newCorrectAnswers newWrongAnswers questionsCompleted) }
    else { s1 with currentIndex := snapshot.currentIndex + 1 }
  else
    let maxQueueSize : Int := snapshot.totalQuestions * 3
    let newQueue :=
      if (snapshot.questionQueue.length : Int) ≥ maxQueueSize then
        snapshot.questionQueue
      else
        match snapshot.questionQueue.get? snapshot.currentIndex with
        | none => snapshot.questionQueue
        | some failedQuestion =>
          spliceInsert snapshot.questionQueue
            (requeueInsertPos choice snapshot.questionQueue.length
              snapshot.currentIndex)
            failedQuestion
    { s1 with questionQueue := newQueue
              currentIndex := snapshot.currentIndex + 1 }

/-- `submitAnswer` from Gauntlet/index.tsx lines 468-558. Every new field
value is computed from the snapshot `s`, as in the source where the
closure variables hold the render-time values. -/
def submitAnswer (choice : Nat → Nat → Nat) (s : GauntletState)
    (isCorrect : Bool) : GauntletState :=
  if s.phase ≠ Phase.playing then s
  else
    match s.questionQueue.get? s.currentIndex with
    | none => s
    | some q =>
      if isCorrect then
        let newStreak := s.currentStreak + 1
        let newBestStreak :=
          if newStreak > s.bestStreak then newStreak else s.bestStreak
        let newCharacterStats := bumpCorrect s.characterStats (getItemId q.item)
        let newCorrectAnswers := s.correctAnswers + 1
        let questionsCompleted := s.currentIndex + 1
        let regen := regenUpdate s
        let s1 := { s with
          correctAnswers := newCorrectAnswers
          currentStreak := newStreak
          bestStreak := newBestStreak
          characterStats := newCharacterStats
          lives := regen.1
          correctSinceLastRegen := regen.2.1
          livesRegenerated := regen.2.2 }
        advanceToNextQuestion choice s s1 s.lives true newCorrectAnswers
          s.wrongAnswers questionsCompleted
      else
        let newCharacterStats := bumpWrong s.characterStats (getItemId q.item)
        let newLives := s.lives - 1
        let newWrongAnswers := s.wrongAnswers + 1
        let questionsCompleted := s.currentIndex + 1
        let s1 := { s with
          wrongAnswers := newWrongAnswers
          currentStreak := 0
          correctSinceLastRegen := 0
          characterStats := newCharacterStats
          lives := newLives }
        advanceToNextQuestion choice s s1 newLives false s.correctAnswers
          newWrongAnswers questionsCompleted

/-- `handleStart` from Gauntlet/index.tsx lines 225-277, restricted to the
session-machine state. `startingLives` and `regenerates` are the entries
of `DIFFICULTY_CONFIG[difficulty]`, which the component receives from its
difficulty table. -/
def handleStart (choice : Nat → Nat → Nat) (items : List JsVal)
    (repetitions : Int) (startingLives : Int) (regenerates : Bool) :
    GauntletState :=
  let queue := generateQuestionQueue choice items repetitions
  { questionQueue := queue
    currentIndex := 0
    lives := startingLives
    maxLives := startingLives
    correctSinceLastRegen := 0
    regenThreshold := calculateRegenThreshold queue.length
    correctAnswers := 0
    wrongAnswers := 0
    currentStreak := 0
    bestStreak := 0
    livesRegenerated := 0
    characterStats := []
    totalQuestions := (items.length : Int) * repetitions
    regenerates := regenerates
    phase := Phase.playing
    result := none }

/-- A sequence of answer submissions, each with its own source of
randomness for the requeue placement. -/
def runSession (s : GauntletState)
    (inputs : List (Bool × (Nat → Nat → Nat))) : GauntletState :=
  inputs.foldl (fun st i => submitAnswer i.2 st i.1) s

/-- The invariant the spec asserts for the Active phase. -/
def sessionInvariant (s : GauntletState) : Prop :=
  s.phase = Phase.playing →
    0 ≤ s.lives ∧ s.lives ≤ s.maxLives ∧ s.currentStreak ≤ s.bestStreak

/-! ### Persistent stats store (src/shared/lib/gauntletStats.ts) -/

/-- The three drill categories. -/
inductive Dojo where
  | kana
  | kanji
  | vocabulary
deriving DecidableEq

/-- `LifetimeTotals` from gauntletStats.ts lines 10-16. -/
structure LifetimeTotals where
  totalSessions : Nat
  completedSessions : Nat
  totalCorrect : Nat
  totalWrong : Nat
  bestStreak : Nat
deriving DecidableEq

/-- The fields of `GauntletSessionStats` that `saveSession` reads. -/
structure SessionStats where
  dojoType : Dojo
  difficulty : String
  gameMode : String
  repetitionsPerChar : Nat
  totalCharacters : Nat
  totalTimeMs : Nat
  completed : Bool
  correctAnswers : Nat
  wrongAnswers : Nat
  bestStreak : Nat
deriving DecidableEq

/-- `StoredGauntletData` from gauntletStats.ts lines 18-32 (the version
field is constant and omitted; the per-dojo record maps are functions). -/
structure StoredGauntletData where
  sessions : List SessionStats
  bestTimes : Dojo → String → Option Nat
  lifetimeTotals : Dojo → LifetimeTotals

/-- `getDefaultLifetimeTotals` from gauntletStats.ts lines 34-40. -/
def getDefaultLifetimeTotals : LifetimeTotals :=
  { totalSessions := 0, completedSessions := 0, totalCorrect := 0
    totalWrong := 0, bestStreak := 0 }

/-- `getDefaultData` from gauntletStats.ts lines 42-55. -/
def getDefaultData : StoredGauntletData :=
  { sessions := []
    bestTimes := fun _ _ => none
    lifetimeTotals := fun _ => getDefaultLifetimeTotals }

/-- `getBestTimeKey` from gauntletStats.ts lines 60-67. -/
def getBestTimeKey (difficulty : String) (repetitions : Nat)
    (gameMode : String) (totalCharacters : Nat) : String :=
  difficulty ++ "-" ++ toString repetitions ++ "-" ++ gameMode ++ "-" ++
    toString totalCharacters

/-- The configuration key `saveSession` computes for a session. -/
def sessionKey (s : SessionStats) : String :=
  getBestTimeKey s.difficulty s.repetitionsPerChar s.gameMode
    s.totalCharacters

/-- `saveSession` from gauntletStats.ts lines 124-168, as a pure function
of the loaded blob (the session id, which the claims never read, is not
modelled). The best-time guard `!currentBest || totalTimeMs < currentBest`
is translated with JS truthiness: a stored value of `0` counts as absent. -/
def saveSession (data : StoredGauntletData) (stats : SessionStats) :
    StoredGauntletData × Bool :=
  let t := data.lifetimeTotals stats.dojoType
  let t2 : LifetimeTotals :=
    { totalSessions := t.totalSessions + 1
      completedSessions :=
        if stats.completed then t.completedSessions + 1
        else t.completedSessions
      totalCorrect := t.totalCorrect + stats.correctAnswers
      totalWrong := t.totalWrong + stats.wrongAnswers
      bestStreak := max t.bestStreak stats.bestStreak }
  let newSessions := (stats :: data.sessions).take 100
  let key := sessionKey stats
  let currentBest := data.bestTimes stats.dojoType key
  let isNewBest : Bool :=
    stats.completed &&
      (match currentBest with
       | none => true
       | some b => b == 0 || stats.totalTimeMs < b)
  let newBestTimes :=
    if isNewBest then
      fun d k =>
        if d = stats.dojoType ∧ k = key then some stats.totalTimeMs
        else data.bestTimes d k
    else data.bestTimes
  ({ sessions := newSessions
     bestTimes := newBestTimes
     lifetimeTotals := fun d =>
       if d = stats.dojoType then t2 else data.lifetimeTotals d },
   isNewBest)

/-- Fold a sequence of `saveSession` calls over a stored blob. -/
def applySaves (data : StoredGauntletData) (l : List SessionStats) :
    StoredGauntletData :=
  l.foldl (fun d s => (saveSession d s).1) data

/-- The minimum `totalTimeMs` among the completed sessions of a list that
belong to dojo `d` and configuration key `k` (`none` when there is no such
session). This is the quantity the spec says `bestTimes` tracks. -/
def minCompletedTime : List SessionStats → Dojo → String → Option Nat
  | [], _, _ => none
  | s :: l, d, k =>
    let rest := minCompletedTime l d k
    if s.completed = true ∧ s.dojoType = d ∧ sessionKey s = k then
      some (match rest with
            | none => s.totalTimeMs
            | some m => min s.totalTimeMs m)
    else rest

/-- The sessions of a list belonging to one dojo category. -/
def dojoSessions (l : List SessionStats) (d : Dojo) : List SessionStats :=
  l.filter (fun s => s.dojoType = d)

/-- Running maximum of the best streaks of a session list. -/
def maxStreak (l : List SessionStats) : Nat :=
  (l.map SessionStats.bestStreak).foldr max 0

/-- Combine an existing best-time slot with the minimum of newly saved
times: keep whichever is smaller, treating `none` as absent. -/
def mergeBest : Option Nat → Option Nat → Option Nat
  | none, b => b
  | some a, none => some a
  | some a, some b => some (min a b)

/-- No best-time slot holds 0: the invariant under which the JS falsy
check `!currentBest` coincides with an absence check. -/
def noZeroBest (data : StoredGauntletData) : Prop :=
  ∀ d k, data.bestTimes d k ≠ some 0

/-! ### Concrete sample data used by witnesses and counterexamples -/

/-- A completed kana session with a degenerate total time of 0 ms. -/
def s7zero : SessionStats :=
  { dojoType := .kana, difficulty := "easy", gameMode := "Pick"
    repetitionsPerChar := 1, totalCharacters := 2, totalTimeMs := 0
    completed := true, correctAnswers := 2, wrongAnswers := 0
    bestStreak := 2 }

/-- A completed kana session with the same configuration key and a total
time of 5 ms. -/
def s7five : SessionStats := { s7zero with totalTimeMs := 5 }

/-- A completed kana session taking 7 ms. -/
def w7a : SessionStats := { s7zero with totalTimeMs := 7 }

/-- A completed kana session with the same configuration key taking 4 ms. -/
def w7b : SessionStats := { s7zero with totalTimeMs := 4 }

/-- An active session on its last life, about to present its only
question. -/
def w9state : GauntletState :=
  { questionQueue := [⟨JsVal.jstr "a", 0, 1⟩]
    currentIndex := 0, lives := 1, maxLives := 3
    correctSinceLastRegen := 0, regenThreshold := 5
    correctAnswers := 0, wrongAnswers := 0
    currentStreak := 0, bestStreak := 0, livesRegenerated := 0
    characterStats := [], totalQuestions := 1, regenerates := false
    phase := Phase.playing, result := none }

/-- An active session with a three-entry queue, cursor at the front, two
lives and an uncapped queue. -/
def w2state : GauntletState :=
  { questionQueue := [⟨JsVal.jstr "a", 0, 1⟩, ⟨JsVal.jstr "i", 1, 1⟩,
      ⟨JsVal.jstr "u", 2, 1⟩]
    currentIndex := 0, lives := 2, maxLives := 3
    correctSinceLastRegen := 0, regenThreshold := 5
    correctAnswers := 0, wrongAnswers := 0
    currentStreak := 0, bestStreak := 0, livesRegenerated := 0
    characterStats := [], totalQuestions := 2, regenerates := true
    phase := Phase.playing, result := none }

/-- An active regenerating session on one of three lives with a long
queue, matching the setup of the regeneration property. -/
def w4state : GauntletState :=
  { questionQueue := (List.range 10).map (fun i => ⟨JsVal.jstr "a", i, 1⟩)
    currentIndex := 0, lives := 1, maxLives := 3
    correctSinceLastRegen := 0, regenThreshold := 5
    correctAnswers := 0, wrongAnswers := 0
    currentStreak := 0, bestStreak := 0, livesRegenerated := 0
    characterStats := [], totalQuestions := 20, regenerates := true
    phase := Phase.playing, result := none }

/-- An active session whose queue has already reached three times the
original target length. -/
def w5state : GauntletState :=
  { questionQueue := [⟨JsVal.jstr "a", 0, 1⟩, ⟨JsVal.jstr "i", 1, 1⟩,
      ⟨JsVal.jstr "u", 2, 1⟩]
    currentIndex := 0, lives := 5, maxLives := 5
    correctSinceLastRegen := 0, regenThreshold := 5
    correctAnswers := 0, wrongAnswers := 0
    currentStreak := 0, bestStreak := 0, livesRegenerated := 0
    characterStats := [], totalQuestions := 1, regenerates := false
    phase := Phase.playing, result := none }

/-! ### Helper lemmas -/

theorem repRange_eq_nil (repetitions : Int) (h : repetitions < 1) :
    repRange repetitions = [] := by
  unfold repRange
  have ht : repetitions.toNat = 0 := Int.toNat_of_nonpos (by omega)
  simp [ht]

theorem flatMap_const_nil {α β : Type} (l : List α) :
    l.flatMap (fun _ => ([] : List β)) = [] := by
  induction l with
  | nil => rfl
  | cons a t ih => simp [List.flatMap] at ih ⊢

theorem lookup_eq_none_of_forall {β : Type} (k : String)
    (l : List (String × β)) (h : ∀ p ∈ l, p.1 ≠ k) : l.lookup k = none := by
  induction l with
  | nil => rfl
  | cons a t ih =>
    have ha : a.1 ≠ k := h a (by simp)
    have hb : (k == a.1) = false := by
      simp only [beq_eq_false_iff_ne]
      exact fun he => ha he.symm
    cases a with
    | mk key v =>
      simp only [List.lookup, hb]
      exact ih (fun p hp => h p (by simp [hp]))

/-! ### Claim theorems -/

/-- C1 (counterexample): at `repetitions = 0` (a value strictly less than
1) the implemented `generateQuestionQueue` returns a queue — the empty
one — while the specified behaviour is to fail with `InvalidConfigError`;
no failure path exists in the implementation. -/
theorem generateQuestionQueue_no_error_on_zero_repetitions :
    generateQuestionQueue (fun lo _ => lo) [JsVal.jstr "a"] 0 = [] ∧
    generateQuestionQueueSpec (fun lo _ => lo) [JsVal.jstr "a"] 0 =
      Except.error GauntletError.invalidConfig :=
  ⟨rfl, rfl⟩

/-- C1 (amended): for every repetitions value strictly less than 1,
`generateQuestionQueue` returns the empty queue (the repetition loop body
never runs, so no entries are created); it does not fail and raises no
error. -/
theorem generateQuestionQueue_empty_of_repetitions_lt_one
    (choice : Nat → Nat → Nat) (items : List JsVal) (repetitions : Int)
    (h : repetitions < 1) :
    generateQuestionQueue choice items repetitions = [] := by
  unfold generateQuestionQueue
  rw [repRange_eq_nil repetitions h]
  simp only [List.map_nil, flatMap_const_nil]
  rfl

/-- Witness for the amended C1 theorem at `repetitions = 0`. -/
theorem generateQuestionQueue_empty_witness :
    (0 : Int) < 1 ∧
    generateQuestionQueue (fun lo _ => lo) [JsVal.jstr "a"] 0 = [] :=
  ⟨by decide,
   generateQuestionQueue_empty_of_repetitions_lt_one (fun lo _ => lo)
     [JsVal.jstr "a"] 0 (by decide)⟩

/-- C10: two distinct drill items that are objects with none of the
fields `kana`, `kanji`, `word`, `id` both resolve to the generic string
conversion `[object Object]`, so they share one identity key and their
per-item tallies land in a single merged entry. -/
theorem getItemId_collapses_plain_objects (f1 f2 : List (String × String))
    (hne : f1 ≠ f2)
    (h1 : ∀ p ∈ f1, p.1 ≠ "kana" ∧ p.1 ≠ "kanji" ∧ p.1 ≠ "word" ∧ p.1 ≠ "id")
    (h2 : ∀ p ∈ f2, p.1 ≠ "kana" ∧ p.1 ≠ "kanji" ∧ p.1 ≠ "word" ∧ p.1 ≠ "id") :
    getItemId (JsVal.jobj f1) = getItemId (JsVal.jobj f2) ∧
    getItemId (JsVal.jobj f1) = "[object Object]" ∧
    bumpCorrect (bumpCorrect [] (getItemId (JsVal.jobj f1)))
        (getItemId (JsVal.jobj f2)) = [("[object Object]", 2, 0)] := by
  have gen : ∀ f : List (String × String),
      (∀ p ∈ f, p.1 ≠ "kana" ∧ p.1 ≠ "kanji" ∧ p.1 ≠ "word" ∧ p.1 ≠ "id") →
      getItemId (JsVal.jobj f) = "[object Object]" := by
    intro f hf
    have e : getItemId (JsVal.jobj f) =
        (match f.lookup "kana" with
         | some v => v
         | none =>
           match f.lookup "kanji" with
           | some v => v
           | none =>
             match f.lookup "word" with
             | some v => v
             | none =>
               match f.lookup "id" with
               | some v => v
               | none => jsToString (JsVal.jobj f)) := rfl
    rw [e, lookup_eq_none_of_forall _ _ (fun p hp => (hf p hp).1),
        lookup_eq_none_of_forall _ _ (fun p hp => (hf p hp).2.1),
        lookup_eq_none_of_forall _ _ (fun p hp => (hf p hp).2.2.1),
        lookup_eq_none_of_forall _ _ (fun p hp => (hf p hp).2.2.2)]
    rfl
  have e1 := gen f1 h1
  have e2 := gen f2 h2
  refine ⟨e1.trans e2.symm, e1, ?_⟩
  rw [e1, e2]
  rfl

/-- Witness for C10 on two concrete distinct plain objects. -/
theorem getItemId_collapses_witness :
    getItemId (JsVal.jobj [("meanings", "x")]) =
      getItemId (JsVal.jobj [("onyomi", "y")]) ∧
    getItemId (JsVal.jobj [("meanings", "x")]) = "[object Object]" ∧
    bumpCorrect (bumpCorrect [] (getItemId (JsVal.jobj [("meanings", "x")])))
        (getItemId (JsVal.jobj [("onyomi", "y")])) =
      [("[object Object]", 2, 0)] :=
  getItemId_collapses_plain_objects [("meanings", "x")] [("onyomi", "y")]
    (by decide) (by decide) (by decide)

/-- The start state of a session on a single item with one repetition and
three lives. -/
theorem handleStart_single_item (item : JsVal) (c0 : Nat → Nat → Nat)
    (regenerates : Bool) :
    handleStart c0 [item] 1 3 regenerates =
    { questionQueue := [⟨item, 0, 1⟩]
      currentIndex := 0, lives := 3, maxLives := 3
      correctSinceLastRegen := 0, regenThreshold := 5
      correctAnswers := 0, wrongAnswers := 0
      currentStreak := 0, bestStreak := 0, livesRegenerated := 0
      characterStats := [], totalQuestions := 1, regenerates := regenerates
      phase := Phase.playing, result := none } := by
  have hq : generateQuestionQueue c0 [item] 1 = [⟨item, 0, 1⟩] := rfl
  simp only [handleStart, hq, List.length_cons, List.length_nil]
  norm_num [calculateRegenThreshold]

/-- C3: a session started with one item, `repetitions = 1` and three
lives, answered wrong once and then (on the requeued copy) correct,
finishes with `completed = true`, one correct, one wrong, and two lives,
whatever the drill item, random sources and regeneration setting are. -/
theorem single_item_wrong_then_correct_run (item : JsVal)
    (c0 c1 c2 : Nat → Nat → Nat) (regenerates : Bool) :
    (submitAnswer c2 (submitAnswer c1
        (handleStart c0 [item] 1 3 regenerates) false) true).phase =
      Phase.results ∧
    (submitAnswer c2 (submitAnswer c1
        (handleStart c0 [item] 1 3 regenerates) false) true).lives = 2 ∧
    (submitAnswer c2 (submitAnswer c1
        (handleStart c0 [item] 1 3 regenerates) false) true).result.map
      SessionResult.completed = some true ∧
    (submitAnswer c2 (submitAnswer c1
        (handleStart c0 [item] 1 3 regenerates) false) true).result.map
      SessionResult.correctAnswers = some 1 ∧
    (submitAnswer c2 (submitAnswer c1
        (handleStart c0 [item] 1 3 regenerates) false) true).result.map
      SessionResult.wrongAnswers = some 1 ∧
    (submitAnswer c2 (submitAnswer c1
        (handleStart c0 [item] 1 3 regenerates) false) true).result.map
      SessionResult.livesRemaining = some 2 := by
  rw [handleStart_single_item]
  cases regenerates <;> exact ⟨rfl, rfl, rfl, rfl, rfl, rfl⟩

/-- C5: once the queue length has reached three times the original target
(`items.length * repetitions`), a wrong answer leaves the queue untouched
while the life loss, streak reset, wrong tally and per-item tally still
happen. -/
theorem growth_cap_blocks_requeue (choice : Nat → Nat → Nat)
    (s : GauntletState) (q : GauntletQuestion)
    (hp : s.phase = Phase.playing)
    (hq : s.questionQueue.get? s.currentIndex = some q)
    (hcap : (s.questionQueue.length : Int) ≥ s.totalQuestions * 3) :
    (submitAnswer choice s false).questionQueue = s.questionQueue ∧
    (submitAnswer choice s false).lives = s.lives - 1 ∧
    (submitAnswer choice s false).currentStreak = 0 ∧
    (submitAnswer choice s false).wrongAnswers = s.wrongAnswers + 1 ∧
    (submitAnswer choice s false).characterStats =
      bumpWrong s.characterStats (getItemId q.item) := by
  unfold submitAnswer
  simp only [hp, ne_eq, not_true_eq_false, if_false, hq]
  unfold advanceToNextQuestion
  by_cases hd : s.lives - 1 ≤ 0
  · simp [hd]
  · simp [hd, hcap]

/-- A wrong answer with surviving lives and an uncapped queue: the state
change is exactly a splice of a copy of the current entry plus the
bookkeeping updates. -/
theorem submitAnswer_wrong_requeue (choice : Nat → Nat → Nat)
    (s : GauntletState) (q : GauntletQuestion)
    (hp : s.phase = Phase.playing)
    (hq : s.questionQueue.get? s.currentIndex = some q)
    (hl : 1 < s.lives)
    (hcap : (s.questionQueue.length : Int) < s.totalQuestions * 3) :
    submitAnswer choice s false = { s with
      wrongAnswers := s.wrongAnswers + 1
      currentStreak := 0
      correctSinceLastRegen := 0
      characterStats := bumpWrong s.characterStats (getItemId q.item)
      lives := s.lives - 1
      questionQueue := spliceInsert s.questionQueue
        (requeueInsertPos choice s.questionQueue.length s.currentIndex) q
      currentIndex := s.currentIndex + 1 } := by
  have hd : ¬ (s.lives - 1 ≤ 0) := by omega
  have hcap2 : ¬ ((s.questionQueue.length : Int) ≥ s.totalQuestions * 3) := by
    omega
  have hq2 : s.questionQueue[s.currentIndex]? = some q := by
    rw [← List.get?_eq_getElem?]
    exact hq
  unfold submitAnswer advanceToNextQuestion
  simp [hp, hq2, hd, hcap2]

/-- The requeue position lies between cursor + 1 and
`max (cursor + 1) (min (cursor + 5) (queueLen - 1))` for any valid
random source. -/
theorem requeue_bounds (choice : Nat → Nat → Nat) (n c : Nat)
    (hlen : c < n)
    (hc : ∀ lo hi : Nat, lo ≤ hi → lo ≤ choice lo hi ∧ choice lo hi ≤ hi) :
    c + 1 ≤ requeueInsertPos choice n c ∧
    requeueInsertPos choice n c ≤ max (c + 1) (min (c + 5) (n - 1)) := by
  unfold requeueInsertPos
  by_cases hr : n - (c + 1) > 0
  · have hc1 := hc 1 (max 1 (min (n - (c + 1)) 5)) (by omega)
    simp only [hr, if_true]
    omega
  · simp only [hr, if_false]
    omega

/-- Every position in the window is reached by some draw of the uniform
offset. -/
theorem requeue_attainable (n c : Nat) (hlen : c < n) (p : Nat)
    (h1 : c + 1 ≤ p) (h2 : p ≤ max (c + 1) (min (c + 5) (n - 1))) :
    ∃ v, 1 ≤ v ∧ v ≤ max 1 (min (n - (c + 1)) 5) ∧
      requeueInsertPos (fun _ _ => v) n c = p := by
  refine ⟨p - c, by omega, by omega, ?_⟩
  unfold requeueInsertPos
  by_cases hr : n - (c + 1) > 0
  · simp only [hr, if_true]
    omega
  · simp only [hr, if_false]
    omega

/-- C2 (counterexample): with a queue of length 3 and the cursor at 0, the
set of insertion positions attainable over every valid uniform draw is
exactly {1, 2}; position 3 = queue.length, which the claimed interval
`[cursor + 1, min (cursor + 5) queue.length]` contains, is never chosen. -/
theorem requeue_window_missing_end_position :
    (Finset.Icc 1 2).image (fun v => requeueInsertPos (fun _ _ => v) 3 0) =
      ({1, 2} : Finset Nat) ∧
    3 ∈ Finset.Icc (0 + 1) (min (0 + 5) 3) ∧
    3 ∉ ({1, 2} : Finset Nat) := by
  decide

/-- C2 (amended): on a wrong answer in the playing phase with lives left
after the decrement and the queue below the growth cap, a copy of the
current entry is spliced in at `requeueInsertPos`, which lies in
`[cursor + 1, max (cursor + 1) (min (cursor + 5) (queue.length - 1))]`
(so the end-of-queue position is reached only when the current entry is
the last one), every position of that window is attainable by some
uniform draw, and the cursor advances by exactly 1. -/
theorem requeue_insert_window (choice : Nat → Nat → Nat)
    (s : GauntletState) (q : GauntletQuestion)
    (hp : s.phase = Phase.playing)
    (hq : s.questionQueue.get? s.currentIndex = some q)
    (hl : 1 < s.lives)
    (hcap : (s.questionQueue.length : Int) < s.totalQuestions * 3)
    (hc : ∀ lo hi : Nat, lo ≤ hi → lo ≤ choice lo hi ∧ choice lo hi ≤ hi) :
    (submitAnswer choice s false).currentIndex = s.currentIndex + 1 ∧
    (submitAnswer choice s false).questionQueue = spliceInsert
      s.questionQueue
      (requeueInsertPos choice s.questionQueue.length s.currentIndex) q ∧
    s.currentIndex + 1 ≤
      requeueInsertPos choice s.questionQueue.length s.currentIndex ∧
    requeueInsertPos choice s.questionQueue.length s.currentIndex ≤
      max (s.currentIndex + 1)
        (min (s.currentIndex + 5) (s.questionQueue.length - 1)) ∧
    ∀ p : Nat, s.currentIndex + 1 ≤ p →
      p ≤ max (s.currentIndex + 1)
        (min (s.currentIndex + 5) (s.questionQueue.length - 1)) →
      ∃ v, 1 ≤ v ∧
        v ≤ max 1 (min (s.questionQueue.length - (s.currentIndex + 1)) 5) ∧
        requeueInsertPos (fun _ _ => v) s.questionQueue.length
          s.currentIndex = p := by
  have hlen : s.currentIndex < s.questionQueue.length := by
    obtain ⟨h, _⟩ := List.get?_eq_some.mp hq
    exact h
  have e := submitAnswer_wrong_requeue choice s q hp hq hl hcap
  have hb := requeue_bounds choice s.questionQueue.length s.currentIndex
    hlen hc
  refine ⟨by rw [e], by rw [e], hb.1, hb.2, ?_⟩
  intro p h1 h2
  exact requeue_attainable s.questionQueue.length s.currentIndex hlen p h1 h2

/-- Witness for the amended C2 theorem on a concrete three-entry state. -/
theorem requeue_insert_window_witness :
    (submitAnswer (fun lo _ => lo) w2state false).currentIndex =
      w2state.currentIndex + 1 ∧
    (submitAnswer (fun lo _ => lo) w2state false).questionQueue =
      spliceInsert w2state.questionQueue
        (requeueInsertPos (fun lo _ => lo) w2state.questionQueue.length
          w2state.currentIndex) ⟨JsVal.jstr "a", 0, 1⟩ ∧
    w2state.currentIndex + 1 ≤
      requeueInsertPos (fun lo _ => lo) w2state.questionQueue.length
        w2state.currentIndex ∧
    requeueInsertPos (fun lo _ => lo) w2state.questionQueue.length
        w2state.currentIndex ≤
      max (w2state.currentIndex + 1)
        (min (w2state.currentIndex + 5) (w2state.questionQueue.length - 1)) :=
  ⟨(requeue_insert_window (fun lo _ => lo) w2state ⟨JsVal.jstr "a", 0, 1⟩
      (by decide) (by decide) (by decide) (by decide)
      (fun lo hi h => ⟨Nat.le_refl lo, h⟩)).1,
   (requeue_insert_window (fun lo _ => lo) w2state ⟨JsVal.jstr "a", 0, 1⟩
      (by decide) (by decide) (by decide) (by decide)
      (fun lo hi h => ⟨Nat.le_refl lo, h⟩)).2.1,
   (requeue_insert_window (fun lo _ => lo) w2state ⟨JsVal.jstr "a", 0, 1⟩
      (by decide) (by decide) (by decide) (by decide)
      (fun lo hi h => ⟨Nat.le_refl lo, h⟩)).2.2.1,
   (requeue_insert_window (fun lo _ => lo) w2state ⟨JsVal.jstr "a", 0, 1⟩
      (by decide) (by decide) (by decide) (by decide)
      (fun lo hi h => ⟨Nat.le_refl lo, h⟩)).2.2.2.1⟩

/-- C9: whenever a `submitAnswer` call finishes the session, the
`livesLost` field of the produced record equals starting lives minus the
final lives of the post-call state plus the lives regenerated — the
stale-closure reads in `endGame` cancel exactly, including when the final
correct answer itself triggers a regeneration. -/
theorem livesLost_accounting (choice : Nat → Nat → Nat) (s : GauntletState)
    (b : Bool) (r : SessionResult)
    (hp : s.phase = Phase.playing) (h0 : s.result = none)
    (hr : (submitAnswer choice s b).result = some r) :
    r.livesLost = (submitAnswer choice s b).maxLives -
      (submitAnswer choice s b).lives +
      ((submitAnswer choice s b).livesRegenerated : Int) := by
  unfold submitAnswer advanceToNextQuestion at hr ⊢
  simp only [hp, ne_eq, not_true_eq_false, if_false] at hr ⊢
  cases hqq : s.questionQueue.get? s.currentIndex with
  | none =>
    rw [hqq] at hr
    simp only at hr
    rw [h0] at hr
    exact absurd hr (by simp)
  | some q =>
    rw [hqq] at hr
    simp only [hqq]
    cases b with
    | false =>
      simp only [Bool.false_eq_true, if_false] at hr ⊢
      by_cases hd : s.lives - 1 ≤ 0
      · simp only [hd, if_true] at hr ⊢
        cases Option.some.inj hr
        rfl
      · simp only [hd, if_false] at hr
        rw [h0] at hr
        exact absurd hr (by simp)
    | true =>
      simp only [if_true] at hr ⊢
      by_cases hd : s.lives ≤ 0
      · simp only [hd, if_true] at hr ⊢
        cases Option.some.inj hr
        show s.maxLives - s.lives + (s.livesRegenerated : Int) =
          s.maxLives - (regenUpdate s).1 + ((regenUpdate s).2.2 : Int)
        unfold regenUpdate
        split_ifs with h1 h2
        · simp only []
          push_cast
          omega
        · rfl
        · rfl
      · simp only [hd, if_false] at hr ⊢
        by_cases hc : ((s.correctAnswers + 1 : Nat) : Int) ≥ s.totalQuestions
        · simp only [hc, if_true] at hr ⊢
          cases Option.some.inj hr
          show s.maxLives - s.lives + (s.livesRegenerated : Int) =
            s.maxLives - (regenUpdate s).1 + ((regenUpdate s).2.2 : Int)
          unfold regenUpdate
          split_ifs with h1 h2
          · simp only []
            push_cast
            omega
          · rfl
          · rfl
        · simp only [hc, if_false] at hr
          rw [h0] at hr
          exact absurd hr (by simp)

/-- One correct answer that neither dies nor completes: the full record
update. -/
theorem submitAnswer_correct_noEnd (choice : Nat → Nat → Nat)
    (s : GauntletState) (q : GauntletQuestion)
    (hp : s.phase = Phase.playing)
    (hq : s.questionQueue.get? s.currentIndex = some q)
    (hl : 0 < s.lives)
    (hcnt : ((s.correctAnswers + 1 : Nat) : Int) < s.totalQuestions) :
    submitAnswer choice s true = { s with
      correctAnswers := s.correctAnswers + 1
      currentStreak := s.currentStreak + 1
      bestStreak := if s.currentStreak + 1 > s.bestStreak then
        s.currentStreak + 1 else s.bestStreak
      characterStats := bumpCorrect s.characterStats (getItemId q.item)
      lives := (regenUpdate s).1
      correctSinceLastRegen := (regenUpdate s).2.1
      livesRegenerated := (regenUpdate s).2.2
      currentIndex := s.currentIndex + 1 } := by
  have hd : ¬ (s.lives ≤ 0) := by omega
  have hc2 : ¬ (((s.correctAnswers + 1 : Nat) : Int) ≥ s.totalQuestions) := by
    omega
  have hq2 : s.questionQueue[s.currentIndex]? = some q := by
    rw [← List.get?_eq_getElem?]
    exact hq
  unfold submitAnswer advanceToNextQuestion
  simp [hp, hq2, hd, hc2]
  push_cast at hcnt
  exact hcnt

/-- Field-level consequences of one non-terminal correct answer. -/
theorem correct_step_fields (choice : Nat → Nat → Nat)
    (s : GauntletState) (q : GauntletQuestion)
    (hp : s.phase = Phase.playing)
    (hq : s.questionQueue.get? s.currentIndex = some q)
    (hl : 0 < s.lives)
    (hcnt : ((s.correctAnswers + 1 : Nat) : Int) < s.totalQuestions) :
    (submitAnswer choice s true).phase = Phase.playing ∧
    (submitAnswer choice s true).questionQueue = s.questionQueue ∧
    (submitAnswer choice s true).currentIndex = s.currentIndex + 1 ∧
    (submitAnswer choice s true).correctAnswers = s.correctAnswers + 1 ∧
    (submitAnswer choice s true).totalQuestions = s.totalQuestions ∧
    (submitAnswer choice s true).maxLives = s.maxLives ∧
    (submitAnswer choice s true).regenerates = s.regenerates ∧
    (submitAnswer choice s true).regenThreshold = s.regenThreshold ∧
    (submitAnswer choice s true).lives = (regenUpdate s).1 ∧
    (submitAnswer choice s true).correctSinceLastRegen = (regenUpdate s).2.1 ∧
    (submitAnswer choice s true).livesRegenerated = (regenUpdate s).2.2 := by
  rw [submitAnswer_correct_noEnd choice s q hp hq hl hcnt]
  exact ⟨hp, rfl, rfl, rfl, rfl, rfl, rfl, rfl, rfl, rfl, rfl⟩

/-- C4: with regeneration enabled, `maxLives = 3`, `lives = 1`,
`regenThreshold = 5` and a fresh regen counter, five consecutive correct
answers raise lives to exactly 2 (within `maxLives`), reset the counter
to 0 and count one regeneration; a sixth correct answer leaves lives at 2
with the counter at 1. -/
theorem regen_after_five_correct (choice : Nat → Nat → Nat)
    (s : GauntletState)
    (hp : s.phase = Phase.playing)
    (hreg : s.regenerates = true)
    (hml : s.maxLives = 3) (hlv : s.lives = 1)
    (hth : s.regenThreshold = 5) (hcsr : s.correctSinceLastRegen = 0)
    (hlen : s.currentIndex + 6 ≤ s.questionQueue.length)
    (hcnt : (s.correctAnswers : Int) + 6 < s.totalQuestions) :
    (runSession s (List.replicate 5 (true, choice))).lives = 2 ∧
    (runSession s (List.replicate 5 (true, choice))).correctSinceLastRegen
      = 0 ∧
    (runSession s (List.replicate 5 (true, choice))).livesRegenerated =
      s.livesRegenerated + 1 ∧
    (runSession s (List.replicate 5 (true, choice))).lives ≤ s.maxLives ∧
    (submitAnswer choice (runSession s (List.replicate 5 (true, choice)))
      true).lives = 2 ∧
    (submitAnswer choice (runSession s (List.replicate 5 (true, choice)))
      true).correctSinceLastRegen = 1 := by
  have hrun : runSession s (List.replicate 5 (true, choice)) =
      submitAnswer choice (submitAnswer choice (submitAnswer choice
        (submitAnswer choice (submitAnswer choice s true) true) true)
        true) true := rfl
  rw [hrun]
  set s1 := submitAnswer choice s true with hs1
  set s2 := submitAnswer choice s1 true with hs2
  set s3 := submitAnswer choice s2 true with hs3
  set s4 := submitAnswer choice s3 true with hs4
  set s5 := submitAnswer choice s4 true with hs5
  -- step 1
  obtain ⟨q1, hq1⟩ : ∃ q, s.questionQueue.get? s.currentIndex = some q :=
    ⟨s.questionQueue.get ⟨s.currentIndex, by omega⟩,
     List.get?_eq_get (by omega)⟩
  obtain ⟨p1, qu1, ix1, ca1, tq1, ml1, rg1, th1, lv1, cs1, lr1⟩ :=
    correct_step_fields choice s q1 hp hq1 (by omega)
      (by push_cast; omega)
  have r1 : regenUpdate s = (1, 1, s.livesRegenerated) := by
    unfold regenUpdate
    rw [hreg, hlv, hml, hth, hcsr]
    norm_num
  rw [r1] at lv1 cs1 lr1
  simp only at lv1 cs1 lr1
  -- step 2
  obtain ⟨q2, hq2a⟩ : ∃ q, s.questionQueue.get? (s.currentIndex + 1) =
      some q :=
    ⟨s.questionQueue.get ⟨s.currentIndex + 1, by omega⟩,
     List.get?_eq_get (by omega)⟩
  have hq2 : s1.questionQueue.get? s1.currentIndex = some q2 := by
    rw [qu1, ix1]
    exact hq2a
  obtain ⟨p2, qu2, ix2, ca2, tq2, ml2, rg2, th2, lv2, cs2, lr2⟩ :=
    correct_step_fields choice s1 q2 p1 hq2 (by rw [lv1]; norm_num)
      (by rw [ca1, tq1]; push_cast; omega)
  have r2 : regenUpdate s1 = (1, 2, s.livesRegenerated) := by
    unfold regenUpdate
    rw [rg1, hreg, lv1, ml1, hml, cs1, th1, hth, lr1]
    norm_num
  rw [r2] at lv2 cs2 lr2
  simp only at lv2 cs2 lr2
  -- step 3
  obtain ⟨q3, hq3a⟩ : ∃ q, s.questionQueue.get? (s.currentIndex + 2) =
      some q :=
    ⟨s.questionQueue.get ⟨s.currentIndex + 2, by omega⟩,
     List.get?_eq_get (by omega)⟩
  have hq3 : s2.questionQueue.get? s2.currentIndex = some q3 := by
    rw [qu2, qu1, ix2, ix1]
    exact hq3a
  obtain ⟨p3, qu3, ix3, ca3, tq3, ml3, rg3, th3, lv3, cs3, lr3⟩ :=
    correct_step_fields choice s2 q3 p2 hq3 (by rw [lv2]; norm_num)
      (by rw [ca2, ca1, tq2, tq1]; push_cast; omega)
  have r3 : regenUpdate s2 = (1, 3, s.livesRegenerated) := by
    unfold regenUpdate
    rw [rg2, rg1, hreg, lv2, ml2, ml1, hml, cs2, th2, th1, hth, lr2]
    norm_num
  rw [r3] at lv3 cs3 lr3
  simp only at lv3 cs3 lr3
  -- step 4
  obtain ⟨q4, hq4a⟩ : ∃ q, s.questionQueue.get? (s.currentIndex + 3) =
      some q :=
    ⟨s.questionQueue.get ⟨s.currentIndex + 3, by omega⟩,
     List.get?_eq_get (by omega)⟩
  have hq4 : s3.questionQueue.get? s3.currentIndex = some q4 := by
    rw [qu3, qu2, qu1, ix3, ix2, ix1]
    exact hq4a
  obtain ⟨p4, qu4, ix4, ca4, tq4, ml4, rg4, th4, lv4, cs4, lr4⟩ :=
    correct_step_fields choice s3 q4 p3 hq4 (by rw [lv3]; norm_num)
      (by rw [ca3, ca2, ca1, tq3, tq2, tq1]; push_cast; omega)
  have r4 : regenUpdate s3 = (1, 4, s.livesRegenerated) := by
    unfold regenUpdate
    rw [rg3, rg2, rg1, hreg, lv3, ml3, ml2, ml1, hml, cs3, th3, th2, th1,
      hth, lr3]
    norm_num
  rw [r4] at lv4 cs4 lr4
  simp only at lv4 cs4 lr4
  -- step 5 (regeneration fires)
  obtain ⟨q5, hq5a⟩ : ∃ q, s.questionQueue.get? (s.currentIndex + 4) =
      some q :=
    ⟨s.questionQueue.get ⟨s.currentIndex + 4, by omega⟩,
     List.get?_eq_get (by omega)⟩
  have hq5 : s4.questionQueue.get? s4.currentIndex = some q5 := by
    rw [qu4, qu3, qu2, qu1, ix4, ix3, ix2, ix1]
    exact hq5a
  obtain ⟨p5, qu5, ix5, ca5, tq5, ml5, rg5, th5, lv5, cs5, lr5⟩ :=
    correct_step_fields choice s4 q5 p4 hq5 (by rw [lv4]; norm_num)
      (by rw [ca4, ca3, ca2, ca1, tq4, tq3, tq2, tq1]; push_cast; omega)
  have r5 : regenUpdate s4 = (2, 0, s.livesRegenerated + 1) := by
    unfold regenUpdate
    rw [rg4, rg3, rg2, rg1, hreg, lv4, ml4, ml3, ml2, ml1, hml, cs4, th4,
      th3, th2, th1, hth, lr4]
    norm_num
  rw [r5] at lv5 cs5 lr5
  simp only at lv5 cs5 lr5
  -- step 6 (no second regeneration)
  obtain ⟨q6, hq6a⟩ : ∃ q, s.questionQueue.get? (s.currentIndex + 5) =
      some q :=
    ⟨s.questionQueue.get ⟨s.currentIndex + 5, by omega⟩,
     List.get?_eq_get (by omega)⟩
  have hq6 : s5.questionQueue.get? s5.currentIndex = some q6 := by
    rw [qu5, qu4, qu3, qu2, qu1, ix5, ix4, ix3, ix2, ix1]
    exact hq6a
  obtain ⟨p6, qu6, ix6, ca6, tq6, ml6, rg6, th6, lv6, cs6, lr6⟩ :=
    correct_step_fields choice s5 q6 p5 hq6 (by rw [lv5]; norm_num)
      (by rw [ca5, ca4, ca3, ca2, ca1, tq5, tq4, tq3, tq2, tq1];
          push_cast; omega)
  have r6 : regenUpdate s5 = (2, 1, s.livesRegenerated + 1) := by
    unfold regenUpdate
    rw [rg5, rg4, rg3, rg2, rg1, hreg, lv5, ml5, ml4, ml3, ml2, ml1, hml,
      cs5, th5, th4, th3, th2, th1, hth, lr5]
    norm_num
  rw [r6] at lv6 cs6
  simp only at lv6 cs6
  refine ⟨lv5, cs5, lr5, ?_, lv6, cs6⟩
  rw [lv5, hml]
  norm_num

/-- Witness for C4 on a concrete regenerating state. -/
theorem regen_after_five_correct_witness :
    (runSession w4state (List.replicate 5 (true, fun lo _ => lo))).lives
      = 2 ∧
    (runSession w4state
      (List.replicate 5 (true, fun lo _ => lo))).correctSinceLastRegen
      = 0 ∧
    (runSession w4state
      (List.replicate 5 (true, fun lo _ => lo))).livesRegenerated =
      w4state.livesRegenerated + 1 ∧
    (runSession w4state (List.replicate 5 (true, fun lo _ => lo))).lives ≤
      w4state.maxLives ∧
    (submitAnswer (fun lo _ => lo)
      (runSession w4state (List.replicate 5 (true, fun lo _ => lo)))
      true).lives = 2 ∧
    (submitAnswer (fun lo _ => lo)
      (runSession w4state (List.replicate 5 (true, fun lo _ => lo)))
      true).correctSinceLastRegen = 1 :=
  regen_after_five_correct (fun lo _ => lo) w4state (by decide) (by decide)
    (by decide) (by decide) (by decide) (by decide) (by decide) (by decide)

/-- Witness for C9: a last-life wrong answer on a concrete state. -/
theorem livesLost_accounting_witness :
    (submitAnswer (fun lo _ => lo) w9state false).result =
      some (mkResult w9state false 0 0 1 1) ∧
    (mkResult w9state false 0 0 1 1).livesLost =
      (submitAnswer (fun lo _ => lo) w9state false).maxLives -
        (submitAnswer (fun lo _ => lo) w9state false).lives +
        ((submitAnswer (fun lo _ => lo) w9state false).livesRegenerated :
          Int) :=
  ⟨by decide,
   livesLost_accounting (fun lo _ => lo) w9state false
     (mkResult w9state false 0 0 1 1) (by decide) (by decide) (by decide)⟩

/-- Witness for C5 on a capped concrete state. -/
theorem growth_cap_blocks_requeue_witness :
    (submitAnswer (fun lo _ => lo) w5state false).questionQueue =
      w5state.questionQueue ∧
    (submitAnswer (fun lo _ => lo) w5state false).lives = w5state.lives - 1 ∧
    (submitAnswer (fun lo _ => lo) w5state false).currentStreak = 0 ∧
    (submitAnswer (fun lo _ => lo) w5state false).wrongAnswers =
      w5state.wrongAnswers + 1 ∧
    (submitAnswer (fun lo _ => lo) w5state false).characterStats =
      bumpWrong w5state.characterStats (getItemId (JsVal.jstr "a")) :=
  growth_cap_blocks_requeue (fun lo _ => lo) w5state ⟨JsVal.jstr "a", 0, 1⟩
    (by decide) (by decide) (by decide)

/-- A single `submitAnswer` call preserves the Active-phase invariant. -/
theorem submitAnswer_preserves_invariant (choice : Nat → Nat → Nat)
    (s : GauntletState) (b : Bool) (h : sessionInvariant s) :
    sessionInvariant (submitAnswer choice s b) := by
  unfold sessionInvariant at h ⊢
  by_cases hp : s.phase = Phase.playing
  · unfold submitAnswer advanceToNextQuestion
    simp only [hp, ne_eq, not_true_eq_false, if_false]
    cases hqq : s.questionQueue.get? s.currentIndex with
    | none => exact fun _ => h hp
    | some q =>
      obtain ⟨h1, h2, h3⟩ := h hp
      cases b with
      | false =>
        simp only [Bool.false_eq_true, if_false]
        by_cases hd : s.lives - 1 ≤ 0
        · simp only [hd, if_true]
          intro hcon
          exact absurd hcon (by simp)
        · simp only [hd, if_false]
          intro _
          refine ⟨by omega, by omega, by omega⟩
      | true =>
        simp only [if_true]
        by_cases hd : s.lives ≤ 0
        · simp only [hd, if_true]
          intro hcon
          exact absurd hcon (by simp)
        · simp only [hd, if_false]
          by_cases hc : ((s.correctAnswers + 1 : Nat) : Int) ≥
              s.totalQuestions
          · simp only [hc, if_true]
            intro hcon
            exact absurd hcon (by simp)
          · simp only [hc, if_false]
            intro _
            refine ⟨?_, ?_, ?_⟩
            · show 0 ≤ (regenUpdate s).1
              unfold regenUpdate
              split_ifs <;> simp only [] <;> omega
            · show (regenUpdate s).1 ≤ s.maxLives
              unfold regenUpdate
              split_ifs <;> simp only [] <;> omega
            · show s.currentStreak + 1 ≤
                (if s.currentStreak + 1 > s.bestStreak then
                  s.currentStreak + 1 else s.bestStreak)
              split_ifs <;> omega
  · unfold submitAnswer
    simp only [hp, ne_eq, not_false_eq_true, if_true]
    exact fun hcon => hcon.elim

/-- Any sequence of submissions preserves the Active-phase invariant. -/
theorem runSession_preserves_invariant (inputs : List (Bool × (Nat → Nat → Nat))) :
    ∀ s : GauntletState, sessionInvariant s →
      sessionInvariant (runSession s inputs) := by
  induction inputs with
  | nil => exact fun s h => h
  | cons i t ih =>
    intro s h
    exact ih _ (submitAnswer_preserves_invariant i.2 s i.1 h)

/-- C6: starting from `handleStart` with a non-negative starting-lives
entry from the difficulty table, after any sequence of `submitAnswer`
calls, whenever the session is still in the Active phase it satisfies
`0 <= lives <= maxLives` and `currentStreak <= bestStreak`. -/
theorem active_phase_invariant (c0 : Nat → Nat → Nat) (items : List JsVal)
    (repetitions : Int) (startingLives : Int) (regenerates : Bool)
    (hl : 0 ≤ startingLives)
    (inputs : List (Bool × (Nat → Nat → Nat))) :
    sessionInvariant (runSession
      (handleStart c0 items repetitions startingLives regenerates) inputs) := by
  apply runSession_preserves_invariant
  intro _
  unfold handleStart
  exact ⟨hl, le_refl _, le_refl 0⟩

/-- Witness for C6 on a concrete two-item session with one wrong answer. -/
theorem active_phase_invariant_witness :
    (0 : Int) ≤ 3 ∧
    sessionInvariant (runSession
      (handleStart (fun lo _ => lo) [JsVal.jstr "a", JsVal.jstr "i"] 1 3
        true)
      [(false, fun lo _ => lo)]) :=
  ⟨by decide,
   active_phase_invariant (fun lo _ => lo) [JsVal.jstr "a", JsVal.jstr "i"]
     1 3 true (by decide) [(false, fun lo _ => lo)]⟩

/-- The isNewBest flag as computed by saveSession, with the JS falsy check on the stored best. -/
theorem saveSession_snd (data : StoredGauntletData) (stats : SessionStats) :
    (saveSession data stats).2 =
      (stats.completed &&
        (match data.bestTimes stats.dojoType (sessionKey stats) with
         | none => true
         | some b => b == 0 || stats.totalTimeMs < b)) := rfl

/-- The best-times map after a save: updated at the session slot exactly when isNewBest was reported. -/
theorem saveSession_bestTimes_eq (data : StoredGauntletData)
    (stats : SessionStats) (d : Dojo) (k : String) :
    ((saveSession data stats).1).bestTimes d k =
      if (saveSession data stats).2 = true ∧ d = stats.dojoType ∧
          k = sessionKey stats
      then some stats.totalTimeMs
      else data.bestTimes d k := by
  cases hb : (saveSession data stats).2 with
  | true =>
    unfold saveSession at hb ⊢
    simp only at hb ⊢
    simp [hb]
  | false =>
    unfold saveSession at hb ⊢
    simp only at hb ⊢
    simp [hb]

/-- isNewBest is only reported for completed sessions. -/
theorem saveSession_completed_of_isNewBest (data : StoredGauntletData)
    (stats : SessionStats) (h : (saveSession data stats).2 = true) :
    stats.completed = true := by
  rw [saveSession_snd] at h
  cases hcompl : stats.completed
  · rw [hcompl] at h
    simp at h
  · rfl

/-- Saving a session with a positive time never stores a best of 0. -/
theorem saveSession_noZeroBest (data : StoredGauntletData)
    (stats : SessionStats)
    (hs : stats.completed = true → 0 < stats.totalTimeMs)
    (h : noZeroBest data) : noZeroBest (saveSession data stats).1 := by
  intro d k
  rw [saveSession_bestTimes_eq]
  split_ifs with hcond
  · have := hs (saveSession_completed_of_isNewBest data stats hcond.1)
    simp
    omega
  · exact h d k

/-- A sequence of positive-time saves never stores a best of 0. -/
theorem applySaves_noZeroBest (l : List SessionStats) :
    ∀ data : StoredGauntletData, noZeroBest data →
    (∀ s ∈ l, s.completed = true → 0 < s.totalTimeMs) →
    noZeroBest (applySaves data l) := by
  induction l with
  | nil => exact fun data h _ => h
  | cons a t ih =>
    intro data h hpos
    show noZeroBest (applySaves (saveSession data a).1 t)
    exact ih _ (saveSession_noZeroBest data a (hpos a (by simp)) h)
      (fun s hs => hpos s (by simp [hs]))

/-- When no stored best is 0, isNewBest is reported exactly when the slot is absent or the new time is strictly lower. -/
theorem saveSession_isNewBest (data : StoredGauntletData)
    (stats : SessionStats) (h : noZeroBest data)
    (hc : stats.completed = true) (hp : 0 < stats.totalTimeMs) :
    ((saveSession data stats).2 = true ↔
      data.bestTimes stats.dojoType (sessionKey stats) = none ∨
      ∃ b, data.bestTimes stats.dojoType (sessionKey stats) = some b ∧
        stats.totalTimeMs < b) := by
  rw [saveSession_snd, hc]
  cases hcb : data.bestTimes stats.dojoType (sessionKey stats) with
  | none => simp
  | some b =>
    have hb0 : b ≠ 0 := fun he => h stats.dojoType (sessionKey stats)
      (by rw [hcb, he])
    simp [hb0]

/-- Unfolding equation of minCompletedTime on a cons. -/
theorem minCompletedTime_cons (a : SessionStats) (t : List SessionStats)
    (d : Dojo) (k : String) :
    minCompletedTime (a :: t) d k =
      if a.completed = true ∧ a.dojoType = d ∧ sessionKey a = k then
        some (match minCompletedTime t d k with
              | none => a.totalTimeMs
              | some m => min a.totalTimeMs m)
      else minCompletedTime t d k := rfl

/-- minCompletedTime picks up a matching completed head. -/
theorem minCompletedTime_cons_match (a : SessionStats)
    (t : List SessionStats) (d : Dojo) (k : String)
    (hmatch : a.completed = true ∧ a.dojoType = d ∧ sessionKey a = k) :
    minCompletedTime (a :: t) d k =
      some (match minCompletedTime t d k with
            | none => a.totalTimeMs
            | some m => min a.totalTimeMs m) := by
  rw [minCompletedTime_cons, if_pos hmatch]

/-- minCompletedTime skips a non-matching head. -/
theorem minCompletedTime_cons_skip (a : SessionStats)
    (t : List SessionStats) (d : Dojo) (k : String)
    (hmatch : ¬ (a.completed = true ∧ a.dojoType = d ∧ sessionKey a = k)) :
    minCompletedTime (a :: t) d k = minCompletedTime t d k := by
  rw [minCompletedTime_cons, if_neg hmatch]

/-- After any sequence of positive-time saves, each best-time slot is the merge of its prior value with the minimum of the newly saved matching completed times. -/
theorem applySaves_bestTimes_merge (l : List SessionStats) :
    ∀ data : StoredGauntletData, noZeroBest data →
    (∀ s ∈ l, s.completed = true → 0 < s.totalTimeMs) →
    ∀ d k, (applySaves data l).bestTimes d k =
      mergeBest (data.bestTimes d k) (minCompletedTime l d k) := by
  induction l with
  | nil =>
    intro data _ _ d k
    show data.bestTimes d k = mergeBest (data.bestTimes d k) none
    cases data.bestTimes d k <;> rfl
  | cons a t ih =>
    intro data hz hpos d k
    have hstep : applySaves data (a :: t) =
        applySaves (saveSession data a).1 t := rfl
    rw [hstep, ih _ (saveSession_noZeroBest data a (hpos a (by simp)) hz)
      (fun s hs hsc => hpos s (by simp [hs]) hsc) d k]
    rw [saveSession_bestTimes_eq]
    by_cases hmatch : a.completed = true ∧ a.dojoType = d ∧ sessionKey a = k
    · obtain ⟨hac, had, hak⟩ := hmatch
      rw [minCompletedTime_cons_match a t d k ⟨hac, had, hak⟩]
      have htpos : 0 < a.totalTimeMs := hpos a (by simp) hac
      have hiff := saveSession_isNewBest data a hz hac htpos
      subst had
      subst hak
      by_cases hnb : (saveSession data a).2 = true
      · rw [if_pos ⟨hnb, rfl, rfl⟩]
        rcases hiff.mp hnb with hnone | ⟨b, hb, hlt⟩
        · rw [hnone]
          cases minCompletedTime t a.dojoType (sessionKey a) <;> rfl
        · rw [hb]
          cases hrest : minCompletedTime t a.dojoType (sessionKey a) with
          | none =>
            simp only [mergeBest, Option.some.injEq, inf_eq_min,
              Nat.min_def]
            split_ifs <;> omega
          | some m =>
            simp only [mergeBest, Option.some.injEq, inf_eq_min,
              Nat.min_def]
            split_ifs <;> omega
      · rw [if_neg (fun hcon => hnb hcon.1)]
        rcases hcb : data.bestTimes a.dojoType (sessionKey a) with _ | b
        · exact absurd (hiff.mpr (Or.inl hcb)) hnb
        · have hnlt : ¬ a.totalTimeMs < b := fun hlt =>
            hnb (hiff.mpr (Or.inr ⟨b, hcb, hlt⟩))
          cases hrest : minCompletedTime t a.dojoType (sessionKey a) with
          | none =>
            simp only [mergeBest, Option.some.injEq, inf_eq_min,
              Nat.min_def]
            split_ifs <;> omega
          | some m =>
            simp only [mergeBest, Option.some.injEq, inf_eq_min,
              Nat.min_def]
            split_ifs <;> omega
    · have hcondf : ¬ ((saveSession data a).2 = true ∧ d = a.dojoType ∧
          k = sessionKey a) := by
        rintro ⟨h2, hd2, hk2⟩
        exact hmatch ⟨saveSession_completed_of_isNewBest data a h2,
          hd2.symm, hk2.symm⟩
      rw [if_neg hcondf, minCompletedTime_cons_skip a t d k hmatch]

/-- C7 (amended): when every completed session in the sequence has a strictly positive totalTimeMs, the stored best for each dojo and key equals the minimum totalTimeMs among the saved completed sessions with that key, and the next save reports isNewBest exactly when the stored best is absent or the new time is strictly lower. (The positivity proviso is forced by the JS falsy check: a stored best of 0 ms is treated as absent.) -/
theorem bestTime_is_min_of_positive_times (l : List SessionStats)
    (hpos : ∀ s ∈ l, s.completed = true → 0 < s.totalTimeMs) :
    (∀ d k, (applySaves getDefaultData l).bestTimes d k =
      minCompletedTime l d k) ∧
    (∀ s2 : SessionStats, s2.completed = true → 0 < s2.totalTimeMs →
      ((saveSession (applySaves getDefaultData l) s2).2 = true ↔
        (applySaves getDefaultData l).bestTimes s2.dojoType (sessionKey s2)
          = none ∨
        ∃ b, (applySaves getDefaultData l).bestTimes s2.dojoType
          (sessionKey s2) = some b ∧ s2.totalTimeMs < b)) := by
  have hz0 : noZeroBest getDefaultData := fun d k => by
    simp [getDefaultData]
  constructor
  · intro d k
    rw [applySaves_bestTimes_merge l getDefaultData hz0 hpos d k]
    show mergeBest none (minCompletedTime l d k) = minCompletedTime l d k
    cases minCompletedTime l d k <;> rfl
  · intro s2 hc hp
    exact saveSession_isNewBest (applySaves getDefaultData l) s2
      (applySaves_noZeroBest l getDefaultData hz0 hpos) hc hp

/-- C7 (counterexample): a completed save with totalTimeMs = 0 followed by one with totalTimeMs = 5 on the same key leaves the stored best at 5, not the minimum 0, and the second save reports isNewBest although the stored best was present and 5 is not lower. -/
theorem bestTime_zero_falsiness_cex :
    (applySaves getDefaultData [s7zero, s7five]).bestTimes Dojo.kana
      (sessionKey s7zero) = some 5 ∧
    minCompletedTime [s7zero, s7five] Dojo.kana (sessionKey s7zero) =
      some 0 ∧
    (saveSession (applySaves getDefaultData [s7zero]) s7five).2 = true ∧
    (applySaves getDefaultData [s7zero]).bestTimes Dojo.kana
      (sessionKey s7five) = some 0 ∧
    ¬ ((5 : Nat) < 0) := by
  refine ⟨?_, by decide, ?_, ?_, by decide⟩
  · decide
  · decide
  · decide

/-- Witness for the amended C7 theorem on two concrete saves. -/
theorem bestTime_is_min_witness :
    ((applySaves getDefaultData [w7a, w7b]).bestTimes Dojo.kana
      (sessionKey w7a) = minCompletedTime [w7a, w7b] Dojo.kana
        (sessionKey w7a)) ∧
    ((saveSession (applySaves getDefaultData [w7a, w7b]) w7b).2 = true ↔
      (applySaves getDefaultData [w7a, w7b]).bestTimes w7b.dojoType
        (sessionKey w7b) = none ∨
      ∃ b, (applySaves getDefaultData [w7a, w7b]).bestTimes w7b.dojoType
        (sessionKey w7b) = some b ∧ w7b.totalTimeMs < b) :=
  ⟨(bestTime_is_min_of_positive_times [w7a, w7b] (by decide)).1 Dojo.kana
     (sessionKey w7a),
   (bestTime_is_min_of_positive_times [w7a, w7b] (by decide)).2 w7b
     (by decide) (by decide)⟩

/-- The lifetime totals after one save: the session dojo gets the accumulation step, other dojos are untouched. -/
theorem saveSession_lifetimeTotals (data : StoredGauntletData)
    (a : SessionStats) (d : Dojo) :
    (saveSession data a).1.lifetimeTotals d =
      if d = a.dojoType then
        { totalSessions :=
            (data.lifetimeTotals a.dojoType).totalSessions + 1
          completedSessions :=
            if a.completed then
              (data.lifetimeTotals a.dojoType).completedSessions + 1
            else (data.lifetimeTotals a.dojoType).completedSessions
          totalCorrect := (data.lifetimeTotals a.dojoType).totalCorrect +
            a.correctAnswers
          totalWrong := (data.lifetimeTotals a.dojoType).totalWrong +
            a.wrongAnswers
          bestStreak := max (data.lifetimeTotals a.dojoType).bestStreak
            a.bestStreak }
      else data.lifetimeTotals d := rfl

/-- After any sequence of saves, the lifetime totals of each dojo are the prior totals plus the full sums over the newly saved sessions of that dojo. -/
theorem applySaves_lifetimeTotals (l : List SessionStats) :
    ∀ (data : StoredGauntletData) (d : Dojo),
    (applySaves data l).lifetimeTotals d =
      { totalSessions := (data.lifetimeTotals d).totalSessions +
          (dojoSessions l d).length
        completedSessions := (data.lifetimeTotals d).completedSessions +
          ((dojoSessions l d).filter (fun s => s.completed)).length
        totalCorrect := (data.lifetimeTotals d).totalCorrect +
          ((dojoSessions l d).map SessionStats.correctAnswers).sum
        totalWrong := (data.lifetimeTotals d).totalWrong +
          ((dojoSessions l d).map SessionStats.wrongAnswers).sum
        bestStreak := max (data.lifetimeTotals d).bestStreak
          (maxStreak (dojoSessions l d)) } := by
  induction l with
  | nil =>
    intro data d
    simp [applySaves, dojoSessions, maxStreak]
  | cons a t ih =>
    intro data d
    show (applySaves (saveSession data a).1 t).lifetimeTotals d = _
    rw [ih, saveSession_lifetimeTotals]
    by_cases hd : d = a.dojoType
    · rw [if_pos hd]
      have hcons : dojoSessions (a :: t) d = a :: dojoSessions t d := by
        simp [dojoSessions, List.filter_cons, hd.symm]
      rw [hcons]
      simp only [List.length_cons, List.map_cons, List.sum_cons,
        List.filter_cons, maxStreak, LifetimeTotals.mk.injEq]
      subst hd
      by_cases hc : a.completed = true
      · simp [hc]
        omega
      · simp [hc]
        omega
    · rw [if_neg hd]
      have hcons : dojoSessions (a :: t) d = dojoSessions t d := by
        simp [dojoSessions, List.filter_cons]
        intro hcon
        exact absurd hcon.symm hd
      rw [hcons]

/-- The retained session history grows by one per save and is trimmed at 100 entries. -/
theorem applySaves_sessions_length (l : List SessionStats) :
    ∀ data : StoredGauntletData, data.sessions.length ≤ 100 →
    (applySaves data l).sessions.length =
      min (l.length + data.sessions.length) 100 := by
  induction l with
  | nil =>
    intro data h
    show data.sessions.length = min (0 + data.sessions.length) 100
    omega
  | cons a t ih =>
    intro data h
    show (applySaves (saveSession data a).1 t).sessions.length = _
    have hstep : (saveSession data a).1.sessions.length =
        min 100 (data.sessions.length + 1) := by
      show ((a :: data.sessions).take 100).length = _
      simp [List.length_take]
      omega
    rw [ih _ (by rw [hstep]; omega), hstep]
    simp only [List.length_cons]
    omega

/-- C8: starting from the default blob, after any sequence of saveSession calls the lifetime totals of each category are exactly the full running sums (count, completed count, correct and wrong sums, running best streak) over every session ever saved with that category, while the retained sessions list is trimmed to at most 100 entries. -/
theorem lifetimeTotals_are_full_sums (l : List SessionStats) (d : Dojo) :
    ((applySaves getDefaultData l).lifetimeTotals d).totalSessions =
      (dojoSessions l d).length ∧
    ((applySaves getDefaultData l).lifetimeTotals d).completedSessions =
      ((dojoSessions l d).filter (fun s => s.completed)).length ∧
    ((applySaves getDefaultData l).lifetimeTotals d).totalCorrect =
      ((dojoSessions l d).map SessionStats.correctAnswers).sum ∧
    ((applySaves getDefaultData l).lifetimeTotals d).totalWrong =
      ((dojoSessions l d).map SessionStats.wrongAnswers).sum ∧
    ((applySaves getDefaultData l).lifetimeTotals d).bestStreak =
      maxStreak (dojoSessions l d) ∧
    (applySaves getDefaultData l).sessions.length = min l.length 100 := by
  rw [applySaves_lifetimeTotals l getDefaultData d]
  have hlen := applySaves_sessions_length l getDefaultData (by simp [getDefaultData])
  refine ⟨by simp [getDefaultData, getDefaultLifetimeTotals],
    by simp [getDefaultData, getDefaultLifetimeTotals],
    by simp [getDefaultData, getDefaultLifetimeTotals],
    by simp [getDefaultData, getDefaultLifetimeTotals],
    by simp [getDefaultData, getDefaultLifetimeTotals],
    by rw [hlen]; simp [getDefaultData]⟩

end KanaDojo
